import Mathlib

/-!
Shallow embedding of the collision-rs primitives `Cuboid` and `Cylinder`
(src/primitive/cuboid.rs, src/primitive/cylinder.rs), with theorems checking
the specification's claims about them.  The generic float scalar `S : BaseFloat`
is embedded as the real numbers; `sqrt` is `Real.sqrt`.  Division by zero
follows Lean's convention `x / 0 = 0` (IEEE floats give ±∞/NaN there); every
concrete evaluation below avoids inputs where that difference changes the
branch taken, except where noted in a comment.
-/

noncomputable section

namespace CollisionRs

/-- `cgmath::Vector3<S>` / `cgmath::Point3<S>` with real components.  Points and
vectors are the same embedded type; the source converts between them with
`Point3::from_vec` / `EuclideanSpace` operations that are identities here. -/
@[ext]
structure V3 where
  x : ℝ
  y : ℝ
  z : ℝ

/-- `Vector3::zero()`. -/
def V3.zero : V3 := ⟨0, 0, 0⟩

/-- `Vector3::unit_y()`. -/
def unit_y : V3 := ⟨0, 1, 0⟩

instance : Neg V3 := ⟨fun v => ⟨-v.x, -v.y, -v.z⟩⟩

theorem V3.neg_def (v : V3) : -v = ⟨-v.x, -v.y, -v.z⟩ := rfl

instance : DecidableEq V3 := fun a b =>
  decidable_of_iff (a.x = b.x ∧ a.y = b.y ∧ a.z = b.z) V3.ext_iff.symm

/-- `cgmath` dot product (also `Point3::dot` with a vector, used by the cap
plane computations). -/
def V3.dot (a b : V3) : ℝ := a.x * b.x + a.y * b.y + a.z * b.z

/-- Scalar multiplication `v * s` (componentwise). -/
def smul (c : ℝ) (v : V3) : V3 := ⟨c * v.x, c * v.y, c * v.z⟩

/-- `InnerSpace::magnitude2`: the squared length `dot self self`. -/
def V3.magnitude2 (v : V3) : ℝ := v.x * v.x + v.y * v.y + v.z * v.z

/-- `InnerSpace::magnitude = sqrt(magnitude2)`. -/
def V3.magnitude (v : V3) : ℝ := Real.sqrt v.magnitude2

/-- `InnerSpace::normalize`: `self * (1 / magnitude)`.  On the zero vector the
float code produces NaN components; here `1 / 0 = 0` so the result is the zero
vector, and theorems about zero-length normalization track the guard
explicitly instead of relying on this junk value. -/
def V3.normalize (v : V3) : V3 := smul (1 / v.magnitude) v

/-- `f32/f64::signum`: `1` for non-negative input (reals have no `-0.0`),
`-1` for negative input. -/
def signum (x : ℝ) : ℝ := if x < 0 then -1 else 1

/-- `collision::Ray3<S>`: origin point and direction vector. -/
structure Ray3 where
  origin : V3
  direction : V3

/-- The point `r.origin + r.direction * t`. -/
def rayPoint (r : Ray3) (t : ℝ) : V3 :=
  ⟨r.origin.x + r.direction.x * t,
   r.origin.y + r.direction.y * t,
   r.origin.z + r.direction.z * t⟩

/-- The squared lateral (X,Z) distance of the ray point at parameter `t` from
the Y axis: the `p.x * p.x + p.z * p.z` of the cap checks. -/
def lateralSq (r : Ray3) (t : ℝ) : ℝ :=
  (rayPoint r t).x * (rayPoint r t).x + (rayPoint r t).z * (rayPoint r t).z

/-- An affine transform as this core consumes it: `inverse_transform_vector`
(the source unwraps the `Option`, assuming invertibility) and
`transform_point`. -/
structure Transform where
  inverseTransformVector : V3 → V3
  transformPoint : V3 → V3

/-! ### Cuboid (src/primitive/cuboid.rs) -/

/-- `Cuboid<S>`: full extents and cached half extents.  The eight cached
corners are the ± combinations of `half_dim` and are not needed by the claims
settled here. -/
structure Cuboid where
  dim : V3
  half_dim : V3

/-- `Cuboid::closest_valid_normal_local` (cuboid.rs lines 77-88): snap a
normal to one of the six axis-aligned face normals. -/
def Cuboid.closest_valid_normal_local (normal : V3) : V3 :=
  if |normal.x| > |normal.y| ∧ |normal.x| > |normal.z| then
    ⟨signum normal.x, 0, 0⟩
  else if |normal.y| > |normal.z| ∧ |normal.y| ≥ |normal.x| then
    ⟨0, signum normal.y, 0⟩
  else
    ⟨0, 0, signum normal.z⟩

/-! ### Cylinder (src/primitive/cylinder.rs) -/

/-- `Cylinder<S>`: Y-axis aligned, caps at `y = ±half_height`, lateral surface
`x² + z² = radius²`. -/
structure Cylinder where
  half_height : ℝ
  radius : ℝ

/-- `Cylinder::support_point` (cylinder.rs lines 47-73).  The direction is
mapped to local space, its lateral part normalized and scaled by `radius`
(substituting zero when the lateral part has zero length), the Y component
snapped to the cap selected by the local direction's Y sign, and the local
point mapped back to world space. -/
def Cylinder.support_point (cyl : Cylinder) (direction : V3) (T : Transform) : V3 :=
  let d := T.inverseTransformVector direction
  let negative := d.y < 0
  let lat : V3 := ⟨d.x, 0, d.z⟩
  let result : V3 :=
    if lat.magnitude2 = 0 then V3.zero
    else
      let n := lat.normalize
      if n = V3.zero then V3.zero else smul cyl.radius n
  T.transformPoint ⟨result.x, if negative then -cyl.half_height else cyl.half_height, result.z⟩

/-- `Cylinder::closest_valid_normal_local` (cylinder.rs lines 75-86). -/
def Cylinder.closest_valid_normal_local (normal : V3) : V3 :=
  let flat : V3 := ⟨normal.x, 0, normal.z⟩
  if |normal.y| > flat.magnitude then ⟨0, signum normal.y, 0⟩
  else flat.normalize

/-- Modelled from the spec: the external helper `cylinder_ray_quadratic_solve`
lives in src/primitive/util.rs, which is not among the provided sources.  Per
the spec it solves the quadratic `x(t)² + z(t)² = radius²` for the ray
parameter and "returns the two roots or none if the discriminant is negative —
no real intersection with the infinite lateral cylinder". -/
def cylinder_ray_quadratic_solve (r : Ray3) (radius : ℝ) : Option (ℝ × ℝ) :=
  let a := r.direction.x * r.direction.x + r.direction.z * r.direction.z
  let b := 2 * (r.direction.x * r.origin.x + r.direction.z * r.origin.z)
  let c := r.origin.x * r.origin.x + r.origin.z * r.origin.z - radius * radius
  let dr := b * b - 4 * a * c
  if dr < 0 then none
  else some ((-b + Real.sqrt dr) / (2 * a), (-b - Real.sqrt dr) / (2 * a))

/-- The provisional lateral hit parameter chosen from the two quadratic roots
(cylinder.rs lines 136-142 and 236-242): the smaller non-negative root. -/
def lateralT (t1 t2 : ℝ) : ℝ :=
  if t1 < 0 then t2 else if t2 < 0 then t1 else min t1 t2

/-- The top cap plane candidate `tp` (cylinder.rs lines 250-251):
`n = -unit_y`, `tp = -(half_height + origin·n) / direction·n`. -/
def Cylinder.capTopT (cyl : Cylinder) (r : Ray3) : ℝ :=
  -(cyl.half_height + r.origin.dot (-unit_y)) / r.direction.dot (-unit_y)

/-- The bottom cap plane candidate `tb` (cylinder.rs lines 262-263):
`n = unit_y`, `tb = -(-half_height + origin·n) / direction·n`. -/
def Cylinder.capBotT (cyl : Cylinder) (r : Ray3) : ℝ :=
  -(-cyl.half_height + r.origin.dot unit_y) / r.direction.dot unit_y

/-- Validity of the top cap candidate against the current best parameter
`bound` (cylinder.rs lines 252-254): non-negative, strictly below the bound,
and the cap-plane point strictly inside the radius.  The leading conjunct
`direction·n ≠ 0` makes explicit what IEEE float semantics does implicitly:
with a zero denominator the float `tp` is ±∞ or NaN, which the
`tp >= 0 && tp < t` comparisons (or, in `intersects`, the lateral check on the
resulting infinite/NaN point) always reject, whereas real division by zero
yields 0 here, which those comparisons would wrongly accept. -/
def Cylinder.topValid (cyl : Cylinder) (r : Ray3) (bound : ℝ) : Prop :=
  r.direction.dot (-unit_y) ≠ 0 ∧ cyl.capTopT r ≥ 0 ∧ cyl.capTopT r < bound ∧
    lateralSq r (cyl.capTopT r) < cyl.radius * cyl.radius

/-- Validity of the bottom cap candidate against the current best parameter
`bound` (cylinder.rs lines 264-266); the `direction·n ≠ 0` conjunct is the
explicit form of the IEEE rejection, as in `topValid`. -/
def Cylinder.botValid (cyl : Cylinder) (r : Ray3) (bound : ℝ) : Prop :=
  r.direction.dot unit_y ≠ 0 ∧ cyl.capBotT r ≥ 0 ∧ cyl.capBotT r < bound ∧
    lateralSq r (cyl.capBotT r) < cyl.radius * cyl.radius

instance (cyl : Cylinder) (r : Ray3) (bound : ℝ) : Decidable (cyl.topValid r bound) :=
  inferInstanceAs (Decidable (_ ∧ _ ∧ _ ∧ _))

instance (cyl : Cylinder) (r : Ray3) (bound : ℝ) : Decidable (cyl.botValid r bound) :=
  inferInstanceAs (Decidable (_ ∧ _ ∧ _ ∧ _))

/-- The mutable state of the cap checks in `intersection_normal`
(cylinder.rs lines 244-272): current best `t`, whether a cap hit overrode the
lateral hit, the cap height to snap to, and the cap normal. -/
structure CapState where
  t : ℝ
  hit_cap : Bool
  cap_y : ℝ
  normal : V3

/-- The two sequential cap checks of `intersection_normal` starting from the
lateral parameter `t0` (cylinder.rs lines 244-272).  The first block tests the
top cap plane (`cap_y = half_height`, normal `unit_y`); the second tests the
bottom cap plane against the possibly-updated `t`. -/
def Cylinder.capState (cyl : Cylinder) (r : Ray3) (t0 : ℝ) : CapState :=
  let s1 : CapState :=
    if cyl.topValid r t0 then ⟨cyl.capTopT r, true, cyl.half_height, unit_y⟩
    else ⟨t0, false, 0, V3.zero⟩
  if cyl.botValid r s1.t then ⟨cyl.capBotT r, true, -cyl.half_height, -unit_y⟩
  else s1

/-- The hit point of the general (non-vertical) case of `intersection_normal`
after the cap checks (cylinder.rs lines 274-279): the ray point at the final
`t`, with its Y snapped to the cap height when a cap hit won. -/
def Cylinder.generalHitPoint (cyl : Cylinder) (r : Ray3) (t1 t2 : ℝ) : V3 :=
  let st := cyl.capState r (lateralT t1 t2)
  let pc0 := rayPoint r st.t
  if st.hit_cap then ⟨pc0.x, st.cap_y, pc0.z⟩ else pc0

/-- The general (non-vertical) case of `intersection_normal` given the two
quadratic roots (cylinder.rs lines 232-285). -/
def Cylinder.generalResult (cyl : Cylinder) (r : Ray3) (t1 t2 : ℝ) : Option (V3 × V3) :=
  if t1 < 0 ∧ t2 < 0 then none
  else
    let st := cyl.capState r (lateralT t1 t2)
    let pc := cyl.generalHitPoint r t1 t2
    let normal : V3 :=
      if st.hit_cap then st.normal
      else (V3.mk (rayPoint r st.t).x 0 (rayPoint r st.t).z).normalize
    if pc.y > cyl.half_height ∨ pc.y < -cyl.half_height then none
    else some (pc, normal)

/-- `Cylinder::intersection_normal` (cylinder.rs lines 188-286): vertical-ray
special case, then the quadratic general case. -/
def Cylinder.intersection_normal (cyl : Cylinder) (r : Ray3) : Option (V3 × V3) :=
  if r.direction.x = 0 ∧ r.direction.z = 0 then
    if r.direction.y = 0 ∨
        Real.sqrt (r.origin.x * r.origin.x + r.origin.z * r.origin.z) > cyl.radius then
      none
    else if r.origin.y ≥ cyl.half_height ∧ r.direction.y < 0 then
      some (⟨r.origin.x, cyl.half_height, r.origin.z⟩, unit_y)
    else if r.origin.y ≥ -cyl.half_height ∧ r.direction.y < 0 then
      some (⟨r.origin.x, -cyl.half_height, r.origin.z⟩, -unit_y)
    else if r.origin.y ≤ -cyl.half_height ∧ r.direction.y > 0 then
      some (⟨r.origin.x, -cyl.half_height, r.origin.z⟩, -unit_y)
    else if r.origin.y ≤ cyl.half_height ∧ r.direction.y > 0 then
      some (⟨r.origin.x, cyl.half_height, r.origin.z⟩, unit_y)
    else
      none
  else
    match cylinder_ray_quadratic_solve r cyl.radius with
    | none => none
    | some (t1, t2) => cyl.generalResult r t1 t2

/-- `Cylinder::intersection` (cylinder.rs lines 177-179): the point of
`intersection_normal`. -/
def Cylinder.intersection (cyl : Cylinder) (r : Ray3) : Option V3 :=
  (cyl.intersection_normal r).map Prod.fst

/-- `Cylinder::intersects` (cylinder.rs lines 117-168): the discrete boolean
test.  Note the vertical-ray branch tests only the height/direction
conditions. -/
def Cylinder.intersects (cyl : Cylinder) (r : Ray3) : Bool :=
  if r.direction.x = 0 ∧ r.direction.z = 0 then
    if r.direction.y = 0 then false
    else if (r.origin.y ≥ -cyl.half_height ∧ r.direction.y ≤ 0) ∨
        (r.origin.y ≤ cyl.half_height ∧ r.direction.y ≥ 0) then true
    else false
  else
    match cylinder_ray_quadratic_solve r cyl.radius with
    | none => false
    | some (t1, t2) =>
      if t1 < 0 ∧ t2 < 0 then false
      else
        let t := lateralT t1 t2
        let pc := rayPoint r t
        if pc.y ≤ cyl.half_height ∧ pc.y ≥ -cyl.half_height then true
        else if r.direction.dot (-unit_y) ≠ 0 ∧ cyl.capTopT r ≥ 0 ∧
            lateralSq r (cyl.capTopT r) < cyl.radius * cyl.radius then
          true
        else if r.direction.dot unit_y ≠ 0 ∧ cyl.capBotT r ≥ 0 ∧
            lateralSq r (cyl.capBotT r) < cyl.radius * cyl.radius then
          true
        else false

/-! ### Instrumentation of the zero-length-normalize guards (claim C6)

`normalize` of a zero-length vector is undefined (NaN) in the float source.
The predicates below state, from the code's own branch structure, that an
execution path reaches a `normalize` call whose argument is the zero
vector. -/

/-- `support_point` calls `normalize` only in the branch where the lateral
part's `magnitude2` is nonzero (cylinder.rs lines 57-66); this Prop says that
branch is reached with a zero lateral vector, i.e. an unguarded zero-length
normalization inside `support_point`. -/
def Cylinder.supportZeroNormalize (T : Transform) (direction : V3) : Prop :=
  ¬ (V3.mk (T.inverseTransformVector direction).x 0
      (T.inverseTransformVector direction).z).magnitude2 = 0 ∧
    V3.mk (T.inverseTransformVector direction).x 0
      (T.inverseTransformVector direction).z = V3.zero

/-- `closest_valid_normal_local` calls `flat.normalize()` unconditionally in
its else branch (cylinder.rs line 84); this Prop says that branch is reached
with `flat` the zero vector, i.e. an unguarded zero-length normalization. -/
def Cylinder.closestNormalZeroNormalize (normal : V3) : Prop :=
  ¬ |normal.y| > (V3.mk normal.x 0 normal.z).magnitude ∧
    V3.mk normal.x 0 normal.z = V3.zero

/-- `support_point` as the specification words it, for the refinement
comparison of claim C7: the lateral (X,Z) part of the local direction is
normalized and scaled by `radius` unless it is exactly zero; the Y component
is `+half_height` when the local direction's Y sign is non-negative and
`-half_height` otherwise; inverse transform going in, forward transform
going out. -/
def Cylinder.support_point_spec (cyl : Cylinder) (direction : V3) (T : Transform) : V3 :=
  let d := T.inverseTransformVector direction
  let latOut : V3 :=
    if d.x = 0 ∧ d.z = 0 then V3.zero
    else smul cyl.radius (V3.mk d.x 0 d.z).normalize
  T.transformPoint
    ⟨latOut.x, if 0 ≤ d.y then cyl.half_height else -cyl.half_height, latOut.z⟩

/-! ### Helper lemmas -/

theorem V3.magnitude2_nonneg (v : V3) : 0 ≤ v.magnitude2 := by
  unfold V3.magnitude2
  have hx := mul_self_nonneg v.x
  have hy := mul_self_nonneg v.y
  have hz := mul_self_nonneg v.z
  linarith

theorem V3.magnitude_pos (v : V3) (h : v.magnitude2 ≠ 0) : 0 < v.magnitude := by
  unfold V3.magnitude
  exact Real.sqrt_pos.2 (lt_of_le_of_ne v.magnitude2_nonneg (Ne.symm h))

theorem V3.normalize_ne_zero (v : V3) (h : v.magnitude2 ≠ 0) : v.normalize ≠ V3.zero := by
  intro hz
  apply h
  have hm := v.magnitude_pos h
  have hx := congrArg V3.x hz
  have hy := congrArg V3.y hz
  have hzc := congrArg V3.z hz
  simp only [V3.normalize, smul, V3.zero] at hx hy hzc
  have hmne : 1 / v.magnitude ≠ 0 := one_div_ne_zero (ne_of_gt hm)
  rcases mul_eq_zero.1 hx with h1 | h1
  · exact absurd h1 hmne
  rcases mul_eq_zero.1 hy with h2 | h2
  · exact absurd h2 hmne
  rcases mul_eq_zero.1 hzc with h3 | h3
  · exact absurd h3 hmne
  simp [V3.magnitude2, h1, h2, h3]

theorem lateral_magnitude2_eq_zero_iff (a b : ℝ) :
    (V3.mk a 0 b).magnitude2 = 0 ↔ a = 0 ∧ b = 0 := by
  simp only [V3.magnitude2]
  constructor
  · intro h
    constructor <;> nlinarith [sq_nonneg a, sq_nonneg b]
  · rintro ⟨h1, h2⟩
    rw [h1, h2]; ring

theorem sqrt_four : Real.sqrt 4 = 2 := by
  rw [show (4 : ℝ) = 2 ^ 2 by norm_num, Real.sqrt_sq (by norm_num : (0:ℝ) ≤ 2)]

theorem sqrt_twentyfive : Real.sqrt 25 = 5 := by
  rw [show (25 : ℝ) = 5 ^ 2 by norm_num, Real.sqrt_sq (by norm_num : (0:ℝ) ≤ 5)]

/-! ### Claim theorems -/

/-- Claim C5 (counterexample): at the exact three-way tie `(1,1,1)` the
cuboid normal snap returns the Z axis `(0,0,1)`, not the X axis `(1,0,0)`
that the claim's tie-break order `x > y > z` dictates. -/
theorem cuboid_closest_normal_tie_returns_z :
    Cuboid.closest_valid_normal_local ⟨1, 1, 1⟩ = ⟨0, 0, 1⟩ ∧
    Cuboid.closest_valid_normal_local ⟨1, 1, 1⟩ ≠ ⟨1, 0, 0⟩ := by
  have h : Cuboid.closest_valid_normal_local ⟨1, 1, 1⟩ = ⟨0, 0, 1⟩ := by
    unfold Cuboid.closest_valid_normal_local signum
    norm_num
  refine ⟨h, h ▸ ?_⟩
  intro hc
  have := congrArg V3.z hc
  norm_num at this

/-- Claim C5 (amended): `Cuboid::closest_valid_normal_local` returns the unit
vector along the axis of strictly largest absolute component, signed like that
component; on exact ties the tie-break order is reversed from the claim:
y beats x, z beats y, z beats x, and a three-way tie returns the Z axis. -/
theorem cuboid_closest_normal_cases (v : V3) :
    (|v.x| > |v.y| ∧ |v.x| > |v.z| →
      Cuboid.closest_valid_normal_local v = ⟨signum v.x, 0, 0⟩) ∧
    (|v.y| > |v.x| ∧ |v.y| > |v.z| →
      Cuboid.closest_valid_normal_local v = ⟨0, signum v.y, 0⟩) ∧
    (|v.z| > |v.x| ∧ |v.z| > |v.y| →
      Cuboid.closest_valid_normal_local v = ⟨0, 0, signum v.z⟩) ∧
    (|v.x| = |v.y| ∧ |v.x| > |v.z| →
      Cuboid.closest_valid_normal_local v = ⟨0, signum v.y, 0⟩) ∧
    (|v.y| = |v.z| ∧ |v.y| > |v.x| →
      Cuboid.closest_valid_normal_local v = ⟨0, 0, signum v.z⟩) ∧
    (|v.x| = |v.z| ∧ |v.x| > |v.y| →
      Cuboid.closest_valid_normal_local v = ⟨0, 0, signum v.z⟩) ∧
    (|v.x| = |v.y| ∧ |v.y| = |v.z| →
      Cuboid.closest_valid_normal_local v = ⟨0, 0, signum v.z⟩) := by
  unfold Cuboid.closest_valid_normal_local
  refine ⟨?_, ?_, ?_, ?_, ?_, ?_, ?_⟩ <;> rintro ⟨h1, h2⟩
  · rw [if_pos ⟨h1, h2⟩]
  · rw [if_neg (by rintro ⟨a, _⟩; linarith), if_pos ⟨h2, le_of_lt h1⟩]
  · rw [if_neg (by rintro ⟨_, a⟩; linarith), if_neg (by rintro ⟨a, _⟩; linarith)]
  · rw [if_neg (by rintro ⟨a, _⟩; linarith),
      if_pos ⟨by linarith, by linarith⟩]
  · rw [if_neg (by rintro ⟨a, _⟩; linarith), if_neg (by rintro ⟨a, _⟩; linarith)]
  · rw [if_neg (by rintro ⟨_, a⟩; linarith), if_neg (by rintro ⟨a, _⟩; linarith)]
  · rw [if_neg (by rintro ⟨a, _⟩; linarith), if_neg (by rintro ⟨a, _⟩; linarith)]

/-- Claim C6 (counterexample): at the zero input normal, the cylinder's
`closest_valid_normal_local` reaches its unconditional `flat.normalize()` with
`flat` the zero vector — no zero-vector substitution guards this call (the
float source produces NaN components there). -/
theorem closest_normal_normalizes_zero_vector :
    Cylinder.closestNormalZeroNormalize ⟨0, 0, 0⟩ ∧
    Cylinder.closest_valid_normal_local ⟨0, 0, 0⟩ = V3.normalize V3.zero := by
  constructor
  · constructor
    · simp [V3.magnitude, V3.magnitude2]
    · simp [V3.zero]
  · unfold Cylinder.closest_valid_normal_local
    rw [if_neg]
    · rfl
    · simp [V3.magnitude, V3.magnitude2]

/-- Claim C6 (amended): `support_point` never normalizes a zero-length lateral
vector (its `magnitude2 = 0` guard substitutes the zero vector first), for
every transform and direction; `closest_valid_normal_local` reaches an
unguarded normalization of a zero-length vector exactly when the input normal
is the zero vector. -/
theorem zero_normalize_guard_coverage (T : Transform) (d n : V3) :
    ¬ Cylinder.supportZeroNormalize T d ∧
    (Cylinder.closestNormalZeroNormalize n ↔ n = V3.zero) := by
  constructor
  · rintro ⟨hmag, hzero⟩
    apply hmag
    rw [show (T.inverseTransformVector d).x = 0 from congrArg V3.x hzero,
      show (T.inverseTransformVector d).z = 0 from congrArg V3.z hzero]
    simp [V3.magnitude2]
  · constructor
    · rintro ⟨hy, hflat⟩
      have hx : n.x = 0 := congrArg V3.x hflat
      have hz : n.z = 0 := congrArg V3.z hflat
      have hyy : n.y = 0 := by
        rw [hx, hz] at hy
        simp only [V3.magnitude, V3.magnitude2] at hy
        norm_num at hy
        exact hy
      ext
      · exact hx
      · exact hyy
      · exact hz
    · rintro rfl
      exact ⟨by simp [V3.magnitude, V3.magnitude2, V3.zero], by simp [V3.zero]⟩

/-- Claim C7: `Cylinder::support_point` computes exactly what the
specification describes — inverse-transform the direction, take the
radius-scaled normalized lateral part (zero when the lateral part is exactly
zero), select the cap height by the sign of the local Y component, and map the
local point out through the forward transform. -/
theorem support_point_matches_spec (cyl : Cylinder) (direction : V3) (T : Transform) :
    cyl.support_point direction T = cyl.support_point_spec direction T := by
  unfold Cylinder.support_point Cylinder.support_point_spec
  dsimp only
  have hyiff : ∀ a b : ℝ,
      (if (T.inverseTransformVector direction).y < 0 then a else b) =
        (if 0 ≤ (T.inverseTransformVector direction).y then b else a) := by
    intro a b
    rcases lt_or_le (T.inverseTransformVector direction).y 0 with h | h
    · rw [if_pos h, if_neg (not_le.2 h)]
    · rw [if_neg (not_lt.2 h), if_pos h]
  rw [hyiff]
  by_cases hlat : (T.inverseTransformVector direction).x = 0 ∧
      (T.inverseTransformVector direction).z = 0
  · rw [if_pos ((lateral_magnitude2_eq_zero_iff _ _).2 hlat), if_pos hlat]
  · have hm2 : (V3.mk (T.inverseTransformVector direction).x 0
        (T.inverseTransformVector direction).z).magnitude2 ≠ 0 := by
      intro h
      exact hlat ((lateral_magnitude2_eq_zero_iff _ _).1 h)
    rw [if_neg hm2, if_neg (V3.normalize_ne_zero _ hm2), if_neg hlat]

/-- Claim C9: for an axis-parallel ray whose origin sits laterally at exactly
distance `radius` from the axis, the vertical-ray branch of
`intersection_normal` still reports a hit when the height condition for its
direction holds — the branch rejects only lateral distances strictly greater
than `radius`, so the boundary is inclusive (unlike the strict `< radius` cap
test of the general case). -/
theorem vertical_ray_radius_boundary_hits (cyl : Cylinder) (r : Ray3)
    (hx : r.direction.x = 0) (hz : r.direction.z = 0)
    (hrad : 0 ≤ cyl.radius)
    (hlat : r.origin.x * r.origin.x + r.origin.z * r.origin.z = cyl.radius * cyl.radius)
    (hht : (r.direction.y < 0 ∧ r.origin.y ≥ -cyl.half_height) ∨
      (r.direction.y > 0 ∧ r.origin.y ≤ cyl.half_height)) :
    (cyl.intersection_normal r).isSome = true := by
  have hdy : r.direction.y ≠ 0 := by
    rcases hht with ⟨h, _⟩ | ⟨h, _⟩
    · exact ne_of_lt h
    · exact ne_of_gt h
  have hsq : Real.sqrt (r.origin.x * r.origin.x + r.origin.z * r.origin.z) = cyl.radius := by
    rw [hlat, Real.sqrt_mul_self hrad]
  unfold Cylinder.intersection_normal
  rw [if_pos ⟨hx, hz⟩, if_neg]
  · split_ifs with h1 h2 h3 h4
    · rfl
    · rfl
    · rfl
    · rfl
    · rcases hht with ⟨hd, ho⟩ | ⟨hd, ho⟩
      · exact absurd ⟨ho, hd⟩ h2
      · exact absurd ⟨ho, hd⟩ h4
  · rintro (h | h)
    · exact hdy h
    · rw [hsq] at h
      exact lt_irrefl _ h

/-- Claim C9 witness: cylinder (half_height 2, radius 1), ray from (1,3,0)
straight down — the origin is laterally exactly on the radius and the hit is
reported. -/
theorem vertical_ray_radius_boundary_hits_witness :
    (Cylinder.intersection_normal ⟨2, 1⟩ ⟨⟨1, 3, 0⟩, ⟨0, -1, 0⟩⟩).isSome = true :=
  vertical_ray_radius_boundary_hits ⟨2, 1⟩ ⟨⟨1, 3, 0⟩, ⟨0, -1, 0⟩⟩
    rfl rfl (by norm_num) (by norm_num) (Or.inl ⟨by norm_num, by norm_num⟩)

/-- Claim C10: an axis-parallel ray starting strictly between the caps with
lateral distance within the radius reports the cap it exits through, with the
origin's X and Z preserved: the bottom cap and normal (0,-1,0) for a downward
ray, the top cap and normal (0,1,0) for an upward ray. -/
theorem vertical_ray_inside_exits_cap (cyl : Cylinder) (r : Ray3)
    (hx : r.direction.x = 0) (hz : r.direction.z = 0)
    (hrad : 0 ≤ cyl.radius)
    (hlat : r.origin.x * r.origin.x + r.origin.z * r.origin.z ≤ cyl.radius * cyl.radius)
    (hlo : -cyl.half_height < r.origin.y) (hhi : r.origin.y < cyl.half_height) :
    (r.direction.y < 0 →
      cyl.intersection_normal r =
        some (⟨r.origin.x, -cyl.half_height, r.origin.z⟩, -unit_y)) ∧
    (r.direction.y > 0 →
      cyl.intersection_normal r =
        some (⟨r.origin.x, cyl.half_height, r.origin.z⟩, unit_y)) := by
  have hsq : ¬ Real.sqrt (r.origin.x * r.origin.x + r.origin.z * r.origin.z) > cyl.radius := by
    rw [not_lt, show cyl.radius = Real.sqrt (cyl.radius * cyl.radius) from
      (Real.sqrt_mul_self hrad).symm]
    exact Real.sqrt_le_sqrt hlat
  constructor
  · intro hdy
    unfold Cylinder.intersection_normal
    rw [if_pos ⟨hx, hz⟩, if_neg (by rintro (h | h); exacts [absurd h (ne_of_lt hdy), hsq h]),
      if_neg (by rintro ⟨a, _⟩; linarith), if_pos ⟨le_of_lt hlo, hdy⟩]
  · intro hdy
    unfold Cylinder.intersection_normal
    rw [if_pos ⟨hx, hz⟩, if_neg (by rintro (h | h); exacts [absurd h (ne_of_gt hdy), hsq h]),
      if_neg (by rintro ⟨_, a⟩; linarith), if_neg (by rintro ⟨_, a⟩; linarith),
      if_neg (by rintro ⟨a, _⟩; linarith), if_pos ⟨le_of_lt hhi, hdy⟩]

/-- Claim C10 witness: cylinder (half_height 2, radius 1), ray from
(1/2, 0, 0) straight down exits through the bottom cap at (1/2,-2,0) with
normal (0,-1,0). -/
theorem vertical_ray_inside_exits_cap_witness :
    Cylinder.intersection_normal ⟨2, 1⟩ ⟨⟨1/2, 0, 0⟩, ⟨0, -1, 0⟩⟩ =
      some (⟨1/2, -2, 0⟩, -unit_y) :=
  (vertical_ray_inside_exits_cap ⟨2, 1⟩ ⟨⟨1/2, 0, 0⟩, ⟨0, -1, 0⟩⟩
    rfl rfl (by norm_num) (by norm_num) (by norm_num) (by norm_num)).1 (by norm_num)

/-- Claim C1 (code bug): the discrete and continuous cylinder tests disagree.
The vertical-ray branch of `intersects` never compares the origin's lateral
offset against the radius, so the axis-parallel ray from (5,0,0) straight
down — which misses the radius-1 cylinder by lateral distance 5 — gets
`intersects = true` while `intersection` correctly returns `None`. -/
theorem discrete_continuous_disagree :
    Cylinder.intersects ⟨2, 1⟩ ⟨⟨5, 0, 0⟩, ⟨0, -1, 0⟩⟩ = true ∧
    Cylinder.intersection ⟨2, 1⟩ ⟨⟨5, 0, 0⟩, ⟨0, -1, 0⟩⟩ = none := by
  constructor
  · unfold Cylinder.intersects
    norm_num
  · unfold Cylinder.intersection Cylinder.intersection_normal
    norm_num [sqrt_twentyfive]

/-- Claim C2 (code bug): for the spec's own example — a vertical ray whose
origin has lateral offset (1/2,-1) of length greater than radius 1 — the
continuous test reports no intersection as claimed, but the discrete test
reports a hit, because its vertical-ray branch omits the lateral radius
check. -/
theorem vertical_lateral_miss_disagree :
    Cylinder.intersection_normal ⟨2, 1⟩ ⟨⟨1/2, 3, -1⟩, ⟨0, -1, 0⟩⟩ = none ∧
    Cylinder.intersects ⟨2, 1⟩ ⟨⟨1/2, 3, -1⟩, ⟨0, -1, 0⟩⟩ = true := by
  constructor
  · unfold Cylinder.intersection_normal
    rw [if_pos ⟨rfl, rfl⟩, if_pos]
    right
    show (1 : ℝ) < Real.sqrt (1/2 * (1/2) + -1 * -1)
    rw [show (1/2 * (1/2) + -1 * -1 : ℝ) = 5/4 by norm_num]
    rw [show (1 : ℝ) = Real.sqrt 1 from Real.sqrt_one.symm]
    exact Real.sqrt_lt_sqrt (by norm_num) (by norm_num)
  · unfold Cylinder.intersects
    norm_num

/-- In the non-vertical case `intersection_normal` is the general quadratic
path on the two roots returned by the helper. -/
theorem Cylinder.intersection_normal_general (cyl : Cylinder) (r : Ray3)
    (hxz : ¬(r.direction.x = 0 ∧ r.direction.z = 0)) (t1 t2 : ℝ)
    (hq : cylinder_ray_quadratic_solve r cyl.radius = some (t1, t2)) :
    cyl.intersection_normal r = cyl.generalResult r t1 t2 := by
  unfold Cylinder.intersection_normal
  rw [if_neg hxz, hq]

/-- Claim C4: in the general case, when the point left standing after both cap
checks has Y outside [-half_height, half_height], `intersection_normal`
returns `None` (the absence-of-result outcome; the function is total, so no
panic or error is possible). -/
theorem general_out_of_height_none (cyl : Cylinder) (r : Ray3) (t1 t2 : ℝ)
    (hxz : ¬(r.direction.x = 0 ∧ r.direction.z = 0))
    (hq : cylinder_ray_quadratic_solve r cyl.radius = some (t1, t2))
    (hy : (cyl.generalHitPoint r t1 t2).y > cyl.half_height ∨
      (cyl.generalHitPoint r t1 t2).y < -cyl.half_height) :
    cyl.intersection_normal r = none := by
  rw [Cylinder.intersection_normal_general cyl r hxz t1 t2 hq]
  unfold Cylinder.generalResult
  by_cases h1 : t1 < 0 ∧ t2 < 0
  · rw [if_pos h1]
  · rw [if_neg h1]
    dsimp only
    rw [if_pos hy]

/-- Claim C4 witness: the ray from (-3,10,0) along +X crosses the infinite
lateral cylinder at height 10, no cap candidate is laterally valid, and the
result is `None`. -/
theorem general_out_of_height_none_witness :
    Cylinder.intersection_normal ⟨2, 1⟩ ⟨⟨-3, 10, 0⟩, ⟨1, 0, 0⟩⟩ = none := by
  have hq : cylinder_ray_quadratic_solve ⟨⟨-3, 10, 0⟩, ⟨1, 0, 0⟩⟩ 1 = some (4, 2) := by
    unfold cylinder_ray_quadratic_solve
    norm_num [sqrt_four]
  refine general_out_of_height_none ⟨2, 1⟩ ⟨⟨-3, 10, 0⟩, ⟨1, 0, 0⟩⟩ 4 2
    (by rintro ⟨h, _⟩; norm_num at h) hq ?_
  left
  unfold Cylinder.generalHitPoint Cylinder.capState Cylinder.topValid Cylinder.botValid
    Cylinder.capTopT Cylinder.capBotT lateralT lateralSq rayPoint V3.dot
  norm_num [V3.neg_def, unit_y, min_def]

/-- Claim C3: in the general case a cap-plane candidate overrides the lateral
quadratic hit only when it is non-negative, strictly below the current best
`t`, and its plane point is laterally strictly inside the radius.  When no
candidate qualifies, the lateral hit stands (with the normalized lateral
normal and the final height check); when one does, the returned point has its
Y snapped exactly to the winning cap's height and the normal is that cap's
axis-aligned unit normal. -/
theorem general_cap_override (cyl : Cylinder) (r : Ray3) (t1 t2 : ℝ)
    (hxz : ¬(r.direction.x = 0 ∧ r.direction.z = 0))
    (hq : cylinder_ray_quadratic_solve r cyl.radius = some (t1, t2))
    (hneg : ¬(t1 < 0 ∧ t2 < 0)) (hh : 0 ≤ cyl.half_height) :
    (¬ cyl.topValid r (lateralT t1 t2) → ¬ cyl.botValid r (lateralT t1 t2) →
      cyl.intersection_normal r =
        if (rayPoint r (lateralT t1 t2)).y > cyl.half_height ∨
            (rayPoint r (lateralT t1 t2)).y < -cyl.half_height then none
        else some (rayPoint r (lateralT t1 t2),
          (V3.mk (rayPoint r (lateralT t1 t2)).x 0
            (rayPoint r (lateralT t1 t2)).z).normalize)) ∧
    (cyl.topValid r (lateralT t1 t2) ∨ cyl.botValid r (lateralT t1 t2) →
      ∃ w : V3 × V3, cyl.intersection_normal r = some w ∧
        ((w.1.y = cyl.half_height ∧ w.2 = unit_y ∧
            w.1.x = (rayPoint r (cyl.capTopT r)).x ∧
            w.1.z = (rayPoint r (cyl.capTopT r)).z) ∨
         (w.1.y = -cyl.half_height ∧ w.2 = -unit_y ∧
            w.1.x = (rayPoint r (cyl.capBotT r)).x ∧
            w.1.z = (rayPoint r (cyl.capBotT r)).z))) := by
  rw [Cylinder.intersection_normal_general cyl r hxz t1 t2 hq]
  unfold Cylinder.generalResult Cylinder.generalHitPoint Cylinder.capState
  rw [if_neg hneg]
  constructor
  · intro htop hbot
    rw [if_neg htop]
    dsimp only
    rw [if_neg hbot]
    dsimp only
    norm_num
  · intro hor
    by_cases htop : cyl.topValid r (lateralT t1 t2)
    · rw [if_pos htop]
      dsimp only
      by_cases hbot2 : cyl.botValid r (cyl.capTopT r)
      · rw [if_pos hbot2]
        dsimp only
        norm_num
        exact ⟨_, _, ⟨hh, rfl, rfl⟩, Or.inr ⟨rfl, rfl, rfl, rfl⟩⟩
      · rw [if_neg hbot2]
        dsimp only
        norm_num
        exact ⟨_, _, ⟨hh, rfl, rfl⟩, Or.inl ⟨rfl, rfl, rfl, rfl⟩⟩
    · rw [if_neg htop]
      dsimp only
      rcases hor with h | h
      · exact absurd h htop
      · rw [if_pos h]
        dsimp only
        norm_num
        exact ⟨_, _, ⟨hh, rfl, rfl⟩, Or.inr ⟨rfl, rfl, rfl, rfl⟩⟩

/-- Claim C3 witness: for the ray from (0,3,0) with direction (1,-3,0) on the
cylinder (half_height 2, radius 1) the top cap candidate t = 1/3 is valid and
overrides the lateral root t = 1: the reported hit has Y snapped to a cap
height with that cap's axis-aligned normal. -/
theorem general_cap_override_witness :
    ∃ w : V3 × V3,
      Cylinder.intersection_normal ⟨2, 1⟩ ⟨⟨0, 3, 0⟩, ⟨1, -3, 0⟩⟩ = some w ∧
      ((w.1.y = 2 ∧ w.2 = unit_y) ∨ (w.1.y = -2 ∧ w.2 = -unit_y)) := by
  have hq : cylinder_ray_quadratic_solve ⟨⟨0, 3, 0⟩, ⟨1, -3, 0⟩⟩ 1 = some (1, -1) := by
    unfold cylinder_ray_quadratic_solve
    norm_num [sqrt_four]
  have htop : Cylinder.topValid ⟨2, 1⟩ ⟨⟨0, 3, 0⟩, ⟨1, -3, 0⟩⟩ (lateralT 1 (-1)) := by
    unfold Cylinder.topValid Cylinder.capTopT lateralT lateralSq rayPoint V3.dot
    norm_num [V3.neg_def, unit_y]
  obtain ⟨w, hw, hprop⟩ :=
    (general_cap_override ⟨2, 1⟩ ⟨⟨0, 3, 0⟩, ⟨1, -3, 0⟩⟩ 1 (-1)
      (by rintro ⟨h, _⟩; norm_num at h) hq (by norm_num) (by norm_num)).2 (Or.inl htop)
  refine ⟨w, hw, ?_⟩
  rcases hprop with ⟨h1, h2, _⟩ | ⟨h1, h2, _⟩
  · exact Or.inl ⟨h1, h2⟩
  · exact Or.inr ⟨h1, h2⟩

/-- Claim C8: the spec's concrete cylinder scenarios.  For the cylinder with
half_height 2 and radius 1: the ray from (-3,0,0) along +X hits at (-1,0,0)
with normal (-1,0,0) (lateral surface), and the ray from (0,3,0) along -Y
hits the top cap at (0,2,0) with normal (0,1,0). -/
theorem cylinder_concrete_scenarios :
    Cylinder.intersection_normal ⟨2, 1⟩ ⟨⟨-3, 0, 0⟩, ⟨1, 0, 0⟩⟩ =
      some (⟨-1, 0, 0⟩, ⟨-1, 0, 0⟩) ∧
    Cylinder.intersection_normal ⟨2, 1⟩ ⟨⟨0, 3, 0⟩, ⟨0, -1, 0⟩⟩ =
      some (⟨0, 2, 0⟩, ⟨0, 1, 0⟩) := by
  constructor
  · have hq : cylinder_ray_quadratic_solve ⟨⟨-3, 0, 0⟩, ⟨1, 0, 0⟩⟩ 1 = some (4, 2) := by
      unfold cylinder_ray_quadratic_solve
      norm_num [sqrt_four]
    rw [Cylinder.intersection_normal_general ⟨2, 1⟩ ⟨⟨-3, 0, 0⟩, ⟨1, 0, 0⟩⟩
      (by rintro ⟨h, _⟩; norm_num at h) 4 2 hq]
    unfold Cylinder.generalResult Cylinder.generalHitPoint Cylinder.capState
      Cylinder.topValid Cylinder.botValid Cylinder.capTopT Cylinder.capBotT
      lateralT lateralSq rayPoint V3.dot V3.normalize V3.magnitude V3.magnitude2 smul
    norm_num [V3.neg_def, unit_y, V3.zero, min_def]
  · unfold Cylinder.intersection_normal
    rw [if_pos ⟨rfl, rfl⟩,
      if_neg (by
        rintro (h | h)
        · norm_num at h
        · norm_num [Real.sqrt_zero] at h),
      if_pos (⟨by norm_num, by norm_num⟩ :
        (Ray3.mk ⟨0, 3, 0⟩ ⟨0, -1, 0⟩).origin.y ≥ (Cylinder.mk 2 1).half_height ∧
          (Ray3.mk ⟨0, 3, 0⟩ ⟨0, -1, 0⟩).direction.y < 0)]
    rfl

end CollisionRs

end
